import Mathlib

/-!
Shallow embedding of `internal/gcsx/temp_file.go` (package gcsx): a temp file
wrapping an anonymous backing file on local disk, tracking the lowest byte
offset at which the content has been modified (`dirtyThreshold`) and an
optional modification time (`mtime`).

The backing `*os.File` is modelled as a list of bytes plus a cursor; the
methods the temp file uses (`Read`, `Seek`, `ReadAt`, `WriteAt`, `Truncate`)
are modelled with their POSIX/Go semantics, including the errors the temp
file can actually trigger: `os.ErrInvalid` for a method called through a nil
handle (the state after `Destroy`), negative offsets or sizes, negative seek
targets, and `io.EOF`. The injected `timeutil.Clock` is modelled by passing
the value that `clock.Now()` returns as an explicit argument to each
mutating call.
-/

namespace Gcsx

/-- A byte of file content. -/
abbrev Byte := Nat

/-- Errors surfaced by the backing `os.File` operations: `invalid` is
`os.ErrInvalid` (method called through a nil handle), `negOffset` covers
negative offsets to `WriteAt`/`ReadAt`/`Truncate`, `negSeek` a seek to a
negative position, `badWhence` an unknown whence, `eof` is `io.EOF`. -/
inductive FErr where
  | invalid
  | negOffset
  | negSeek
  | badWhence
  | eof
  deriving DecidableEq, Repr

/-- Model of the backing `*os.File`: the content bytes and the cursor. -/
structure GoFile where
  content : List Byte
  pos : Nat
  deriving DecidableEq, Repr

/-- Move the cursor to `newPos` if it is non-negative, else fail with the
cursor unmoved (the result of the underlying lseek). -/
def seekTo (f : GoFile) (newPos : Int) : GoFile × Except FErr Int :=
  if newPos < 0 then (f, Except.error FErr.negSeek)
  else ({ f with pos := newPos.toNat }, Except.ok newPos)

/-- `os.File.Seek`: whence 0 is relative to start, 1 to the current cursor,
2 to the end of content; returns the new position. -/
def GoFile.seek (f : GoFile) (offset : Int) (whence : Nat) : GoFile × Except FErr Int :=
  if whence = 0 then seekTo f offset
  else if whence = 1 then seekTo f ((f.pos : Int) + offset)
  else if whence = 2 then seekTo f ((f.content.length : Int) + offset)
  else (f, Except.error FErr.badWhence)

/-- `os.File.Read` into a buffer of length `n`: reads up to `n` bytes from
the cursor forward and advances the cursor; reading zero bytes into a
non-empty buffer reports `io.EOF`. -/
def GoFile.read (f : GoFile) (n : Nat) : GoFile × List Byte × Option FErr :=
  if n = 0 then (f, [], none)
  else if f.content.length ≤ f.pos then (f, [], some FErr.eof)
  else
    let bs := (f.content.drop f.pos).take n
    ({ f with pos := f.pos + bs.length }, bs, none)

/-- `os.File.ReadAt`: positioned read that leaves the cursor untouched; a
short read reports `io.EOF`; a negative offset is an error. -/
def GoFile.readAt (f : GoFile) (n : Nat) (offset : Int) : List Byte × Option FErr :=
  if offset < 0 then ([], some FErr.negOffset)
  else
    let bs := (f.content.drop offset.toNat).take n
    (bs, if bs.length < n then some FErr.eof else none)

/-- Overwrite `content` at byte index `off` with `p`, zero-filling any gap
between the old end of content and `off` (pwrite semantics). -/
def writeBytes (content : List Byte) (off : Nat) (p : List Byte) : List Byte :=
  let padded := content ++ List.replicate (off + p.length - content.length) 0
  padded.take off ++ p ++ padded.drop (off + p.length)

/-- `os.File.WriteAt`: positioned write; a negative offset is an error and
writes nothing; the cursor does not move. -/
def GoFile.writeAt (f : GoFile) (p : List Byte) (offset : Int) : GoFile × Nat × Option FErr :=
  if offset < 0 then (f, 0, some FErr.negOffset)
  else ({ f with content := writeBytes f.content offset.toNat p }, p.length, none)

/-- `os.File.Truncate`: a negative size is an error; otherwise the content is
cut or zero-extended to length `n`; the cursor does not move. -/
def GoFile.truncate (f : GoFile) (n : Int) : GoFile × Option FErr :=
  if n < 0 then (f, some FErr.negOffset)
  else
    ({ f with content := f.content.take n.toNat ++ List.replicate (n.toNat - f.content.length) 0 },
     none)

/-- `minInt64` from temp_file.go. -/
def minInt64 (a : Int) (b : Int) : Int :=
  if a < b then a else b

/-- The `tempFile` struct: the `destroyed` flag, the backing file handle
(`none` models the nil handle that `Destroy` leaves behind), the lowest
modified byte index `dirtyThreshold`, and the optional `mtime`. -/
structure TempFile where
  destroyed : Bool
  f : Option GoFile
  dirtyThreshold : Int
  mtime : Option Int
  deriving DecidableEq, Repr

/-- `StatResult` from temp_file.go. -/
structure StatResult where
  Size : Int
  DirtyThreshold : Int
  Mtime : Option Int
  deriving DecidableEq, Repr

/-- `tempFile.Read`: delegates to the backing file; a nil handle yields
`os.ErrInvalid`. -/
def TempFile.Read (tf : TempFile) (n : Nat) : TempFile × List Byte × Option FErr :=
  match tf.f with
  | none => (tf, [], some FErr.invalid)
  | some f =>
    let r := f.read n
    ({ tf with f := some r.1 }, r.2)

/-- `tempFile.Seek`: delegates to the backing file. -/
def TempFile.Seek (tf : TempFile) (offset : Int) (whence : Nat) : TempFile × Except FErr Int :=
  match tf.f with
  | none => (tf, Except.error FErr.invalid)
  | some f =>
    let r := f.seek offset whence
    ({ tf with f := some r.1 }, r.2)

/-- `tempFile.ReadAt`: delegates to the backing file; mutates nothing. -/
def TempFile.ReadAt (tf : TempFile) (n : Nat) (offset : Int) : List Byte × Option FErr :=
  match tf.f with
  | none => ([], some FErr.invalid)
  | some f => f.readAt n offset

/-- `tempFile.Stat`: copies `dirtyThreshold` and `mtime` into the result and
obtains the size by seeking the backing file to its end (`tf.f.Seek(0, 2)`).
The cursor is left wherever that seek put it. -/
def TempFile.Stat (tf : TempFile) : TempFile × Except FErr StatResult :=
  match tf.f with
  | none => (tf, Except.error FErr.invalid)
  | some f =>
    let r := f.seek 0 2
    ({ tf with f := some r.1 },
     match r.2 with
     | Except.error e => Except.error e
     | Except.ok size =>
       Except.ok { Size := size, DirtyThreshold := tf.dirtyThreshold, Mtime := tf.mtime })

/-- `tempFile.WriteAt`: lowers `dirtyThreshold` to `min(dirtyThreshold,
offset)`, sets `mtime` to the clock's current time `now`, then calls through
to the backing file's `WriteAt`. -/
def TempFile.WriteAt (tf : TempFile) (p : List Byte) (offset : Int) (now : Int) :
    TempFile × Nat × Option FErr :=
  let tf1 := { tf with dirtyThreshold := minInt64 tf.dirtyThreshold offset }
  let tf2 := { tf1 with mtime := some now }
  match tf2.f with
  | none => (tf2, 0, some FErr.invalid)
  | some f =>
    let r := f.writeAt p offset
    ({ tf2 with f := some r.1 }, r.2)

/-- `tempFile.Truncate`: lowers `dirtyThreshold` to `min(dirtyThreshold, n)`,
sets `mtime` to the clock's current time `now`, then calls through to the
backing file's `Truncate`. -/
def TempFile.Truncate (tf : TempFile) (n : Int) (now : Int) : TempFile × Option FErr :=
  let tf1 := { tf with dirtyThreshold := minInt64 tf.dirtyThreshold n }
  let tf2 := { tf1 with mtime := some now }
  match tf2.f with
  | none => (tf2, some FErr.invalid)
  | some f =>
    let r := f.truncate n
    ({ tf2 with f := some r.1 }, r.2)

/-- `tempFile.SetMtime`: unconditionally records the given mtime; performs no
destroyed-check and touches nothing else. -/
def TempFile.SetMtime (tf : TempFile) (mtime : Int) : TempFile :=
  { tf with mtime := some mtime }

/-- `tempFile.Destroy`: marks the instance destroyed, closes the backing file
and drops the handle (`tf.f = nil`). -/
def TempFile.Destroy (tf : TempFile) : TempFile :=
  { tf with destroyed := true, f := none }

/-- `tempFile.CheckInvariants`: returns the resulting state and whether the
routine panicked. A destroyed instance panics immediately; otherwise the
current cursor is saved, `Stat` is consulted, the two documented invariants
are checked, and the deferred seek restores the cursor even when a check
panics (Go runs defers during unwinding). -/
def TempFile.CheckInvariants (tf : TempFile) : TempFile × Bool :=
  if tf.destroyed then (tf, true)
  else
    match tf.Seek 0 1 with
    | (tf1, Except.error _) => (tf1, true)
    | (tf1, Except.ok pos) =>
      match tf1.Stat with
      | (tf2, Except.error _) => ((tf2.Seek pos 0).1, true)
      | (tf2, Except.ok sr) =>
        if ¬(sr.DirtyThreshold ≤ sr.Size) then ((tf2.Seek pos 0).1, true)
        else if tf.mtime = none ∧ sr.DirtyThreshold ≠ sr.Size then ((tf2.Seek pos 0).1, true)
        else ((tf2.Seek pos 0).1, false)

/-- The initial content stream handed to `NewTempFile`: the bytes it delivers
and whether it then fails, in which case `io.Copy` stops there and reports
the error after having written the delivered bytes. -/
structure ContentStream where
  bytes : List Byte
  readFails : Bool
  deriving DecidableEq, Repr

/-- The two error paths of `NewTempFile`: the `AnonymousFile: ...` wrapping
and the `copy: ...` wrapping. -/
inductive CreateErr where
  | anonymousFile
  | copy
  deriving DecidableEq, Repr

/-- Equality of `Except` results is decidable when both sides are. -/
instance instDecEqExcept {e a : Type} [DecidableEq e] [DecidableEq a] :
    DecidableEq (Except e a) := fun x y =>
  match x, y with
  | Except.ok v, Except.ok w =>
    match decEq v w with
    | isTrue h => isTrue (congrArg Except.ok h)
    | isFalse h => isFalse fun hc => h (Except.ok.inj hc)
  | Except.error v, Except.error w =>
    match decEq v w with
    | isTrue h => isTrue (congrArg Except.error h)
    | isFalse h => isFalse fun hc => h (Except.error.inj hc)
  | Except.ok _, Except.error _ => isFalse fun hc => Except.noConfusion hc
  | Except.error _, Except.ok _ => isFalse fun hc => Except.noConfusion hc

/-- Outcome of `NewTempFile`: the returned temp file or error, plus
bookkeeping on the anonymous backing file: whether one was allocated and
whether `Close` was called on it before `NewTempFile` returned. -/
structure CreateOutcome where
  result : Except CreateErr TempFile
  allocated : Bool
  fileClosed : Bool
  deriving DecidableEq, Repr

/-- `NewTempFile`: allocates an anonymous backing file (`allocFails` models
`fsutil.AnonymousFile` failing), copies the content stream into it, and on
success wraps it with `dirtyThreshold` equal to the number of bytes copied
and no mtime. Neither error path calls `Close` on the allocated file: the
copy-error path returns with the file still open. -/
def NewTempFile (content : ContentStream) (allocFails : Bool) : CreateOutcome :=
  if allocFails then
    { result := Except.error CreateErr.anonymousFile, allocated := false, fileClosed := false }
  else if content.readFails then
    { result := Except.error CreateErr.copy, allocated := true, fileClosed := false }
  else
    { result := Except.ok
        { destroyed := false
          f := some { content := content.bytes, pos := content.bytes.length }
          dirtyThreshold := (content.bytes.length : Int)
          mtime := none }
      allocated := true
      fileClosed := false }

/-- The temp file a successful `NewTempFile` over `bytes` returns: the
backing file holds the bytes with the cursor left at end-of-content by
`io.Copy`, the threshold equals the size, and no mtime is recorded. -/
def initTF (bytes : List Byte) : TempFile :=
  { destroyed := false
    f := some { content := bytes, pos := bytes.length }
    dirtyThreshold := (bytes.length : Int)
    mtime := none }

/-- One call of the public interface on a live buffer (`Destroy` aside). The
`now` arguments are the values the injected clock returns at the mutating
calls. -/
inductive Op where
  | read (n : Nat)
  | seek (offset : Int) (whence : Nat)
  | readAt (n : Nat) (offset : Int)
  | writeAt (p : List Byte) (offset : Int) (now : Int)
  | truncate (n : Int) (now : Int)
  | setMtime (t : Int)
  | stat
  deriving DecidableEq, Repr

/-- The state reached by one interface call (the returned data and errors are
dropped; `ReadAt` never changes the state). -/
def TempFile.step (tf : TempFile) : Op → TempFile
  | Op.read n => (tf.Read n).1
  | Op.seek offset whence => (tf.Seek offset whence).1
  | Op.readAt _ _ => tf
  | Op.writeAt p offset now => (tf.WriteAt p offset now).1
  | Op.truncate n now => (tf.Truncate n now).1
  | Op.setMtime t => tf.SetMtime t
  | Op.stat => tf.Stat.1

/-- The state reached by a sequence of interface calls. -/
def TempFile.run (tf : TempFile) : List Op → TempFile
  | [] => tf
  | op :: ops => TempFile.run (tf.step op) ops

/-- Invariant 1 of the source (`Stat().DirtyThreshold <= Stat().Size`): the
buffer is live and the threshold is at most the backing content length. -/
def threshInv (tf : TempFile) : Prop :=
  ∃ f, tf.f = some f ∧ tf.dirtyThreshold ≤ (f.content.length : Int)

/-- Invariant 2 of the source (`mtime == nil => DirtyThreshold == Size`): the
buffer is live and, when no mtime was ever recorded, the threshold equals
the backing content length. -/
def cleanInv (tf : TempFile) : Prop :=
  ∃ f, tf.f = some f ∧ (tf.mtime = none → tf.dirtyThreshold = (f.content.length : Int))

/-- The valid WriteAt-offset / Truncate-size side condition: the arguments a
caller may pass without driving the threshold negative. -/
def Op.argsOk : Op → Bool
  | Op.writeAt _ offset _ => decide (0 ≤ offset)
  | Op.truncate n _ => decide (0 ≤ n)
  | _ => true

/-- The metadata prefix of `WriteAt`: the two assignments that the source
performs before the `Call through` line, in source order. -/
def writeAtMeta (tf : TempFile) (offset : Int) (now : Int) : TempFile :=
  { tf with dirtyThreshold := minInt64 tf.dirtyThreshold offset, mtime := some now }

/-- The delegation step of `WriteAt` (`return tf.f.WriteAt(p, offset)`): it
routes the call through the file handle and stores the file it returns. -/
def delegateWriteAt (tf : TempFile) (p : List Byte) (offset : Int) :
    TempFile × Nat × Option FErr :=
  match tf.f with
  | none => (tf, 0, some FErr.invalid)
  | some f =>
    let r := f.writeAt p offset
    ({ tf with f := some r.1 }, r.2)

/-- The metadata prefix of `Truncate`, in source order. -/
def truncateMeta (tf : TempFile) (n : Int) (now : Int) : TempFile :=
  { tf with dirtyThreshold := minInt64 tf.dirtyThreshold n, mtime := some now }

/-- The delegation step of `Truncate` (`return tf.f.Truncate(n)`). -/
def delegateTruncate (tf : TempFile) (n : Int) : TempFile × Option FErr :=
  match tf.f with
  | none => (tf, some FErr.invalid)
  | some f =>
    let r := f.truncate n
    ({ tf with f := some r.1 }, r.2)

theorem minInt64_le_left (a b : Int) : minInt64 a b ≤ a := by
  unfold minInt64; split <;> omega

theorem minInt64_le_right (a b : Int) : minInt64 a b ≤ b := by
  unfold minInt64; split <;> omega

theorem minInt64_nonneg {a b : Int} (ha : 0 ≤ a) (hb : 0 ≤ b) : 0 ≤ minInt64 a b := by
  unfold minInt64; split <;> omega

theorem seekTo_content (f : GoFile) (t : Int) : ((seekTo f t).1).content = f.content := by
  unfold seekTo; split <;> rfl

theorem GoFile.seek_content (f : GoFile) (o : Int) (w : Nat) :
    ((f.seek o w).1).content = f.content := by
  unfold GoFile.seek
  split
  · exact seekTo_content f o
  · split
    · exact seekTo_content f _
    · split
      · exact seekTo_content f _
      · rfl

theorem GoFile.read_content (f : GoFile) (n : Nat) : ((f.read n).1).content = f.content := by
  unfold GoFile.read
  split
  · rfl
  · split
    · rfl
    · rfl

theorem writeBytes_length (c : List Byte) (off : Nat) (p : List Byte) :
    (writeBytes c off p).length = max c.length (off + p.length) := by
  unfold writeBytes
  simp
  omega

theorem GoFile.writeAt_content_length (f : GoFile) (p : List Byte) (off : Int) :
    (f.content.length : Int) ≤ (((f.writeAt p off).1).content.length : Int) := by
  unfold GoFile.writeAt
  split
  · simp
  · simp [writeBytes_length]

theorem GoFile.truncate_content_length (f : GoFile) (n : Int) (h : 0 ≤ n) :
    (((f.truncate n).1).content.length : Int) = n := by
  unfold GoFile.truncate
  split
  · omega
  · simp
    omega

theorem TempFile.Read_dirty (tf : TempFile) (n : Nat) :
    ((tf.Read n).1).dirtyThreshold = tf.dirtyThreshold := by
  cases hf : tf.f <;> simp [TempFile.Read, hf]

theorem TempFile.Read_mtime (tf : TempFile) (n : Nat) :
    ((tf.Read n).1).mtime = tf.mtime := by
  cases hf : tf.f <;> simp [TempFile.Read, hf]

theorem TempFile.Seek_dirty (tf : TempFile) (o : Int) (w : Nat) :
    ((tf.Seek o w).1).dirtyThreshold = tf.dirtyThreshold := by
  cases hf : tf.f <;> simp [TempFile.Seek, hf]

theorem TempFile.Seek_mtime (tf : TempFile) (o : Int) (w : Nat) :
    ((tf.Seek o w).1).mtime = tf.mtime := by
  cases hf : tf.f <;> simp [TempFile.Seek, hf]

theorem TempFile.Stat_dirty (tf : TempFile) :
    (tf.Stat.1).dirtyThreshold = tf.dirtyThreshold := by
  cases hf : tf.f <;> simp [TempFile.Stat, hf]

theorem TempFile.Stat_mtime (tf : TempFile) :
    (tf.Stat.1).mtime = tf.mtime := by
  cases hf : tf.f <;> simp [TempFile.Stat, hf]

theorem TempFile.WriteAt_dirty (tf : TempFile) (p : List Byte) (off now : Int) :
    ((tf.WriteAt p off now).1).dirtyThreshold = minInt64 tf.dirtyThreshold off := by
  cases hf : tf.f <;> simp [TempFile.WriteAt, hf]

theorem TempFile.WriteAt_mtime (tf : TempFile) (p : List Byte) (off now : Int) :
    ((tf.WriteAt p off now).1).mtime = some now := by
  cases hf : tf.f <;> simp [TempFile.WriteAt, hf]

theorem TempFile.Truncate_dirty (tf : TempFile) (n now : Int) :
    ((tf.Truncate n now).1).dirtyThreshold = minInt64 tf.dirtyThreshold n := by
  cases hf : tf.f <;> simp [TempFile.Truncate, hf]

theorem TempFile.Truncate_mtime (tf : TempFile) (n now : Int) :
    ((tf.Truncate n now).1).mtime = some now := by
  cases hf : tf.f <;> simp [TempFile.Truncate, hf]

theorem TempFile.step_dirty_le (tf : TempFile) (op : Op) :
    ((tf.step op).dirtyThreshold ≤ tf.dirtyThreshold) := by
  cases op with
  | read n => simp [TempFile.step, TempFile.Read_dirty]
  | seek o w => simp [TempFile.step, TempFile.Seek_dirty]
  | readAt n o => simp [TempFile.step]
  | writeAt p o now => simp [TempFile.step, TempFile.WriteAt_dirty, minInt64_le_left]
  | truncate n now => simp [TempFile.step, TempFile.Truncate_dirty, minInt64_le_left]
  | setMtime t => simp [TempFile.step, TempFile.SetMtime]
  | stat => simp [TempFile.step, TempFile.Stat_dirty]

theorem TempFile.run_dirty_le (tf : TempFile) (ops : List Op) :
    ((TempFile.run tf ops).dirtyThreshold ≤ tf.dirtyThreshold) := by
  induction ops generalizing tf with
  | nil => exact le_refl _
  | cons op ops ih => exact le_trans (ih (tf.step op)) (tf.step_dirty_le op)

theorem TempFile.step_threshInv (tf : TempFile) (op : Op) (h : threshInv tf) :
    threshInv (tf.step op) := by
  obtain ⟨f, hf, hle⟩ := h
  cases op with
  | read n =>
    refine ⟨(f.read n).1, by simp [TempFile.step, TempFile.Read, hf], ?_⟩
    simpa [TempFile.step, TempFile.Read, hf, GoFile.read_content] using hle
  | seek o w =>
    refine ⟨(f.seek o w).1, by simp [TempFile.step, TempFile.Seek, hf], ?_⟩
    simpa [TempFile.step, TempFile.Seek, hf, GoFile.seek_content] using hle
  | readAt n o => exact ⟨f, hf, hle⟩
  | writeAt p o now =>
    refine ⟨(f.writeAt p o).1, by simp [TempFile.step, TempFile.WriteAt, hf], ?_⟩
    have h1 := GoFile.writeAt_content_length f p o
    have h2 := minInt64_le_left tf.dirtyThreshold o
    simp only [TempFile.step, TempFile.WriteAt, hf]
    omega
  | truncate n now =>
    refine ⟨(f.truncate n).1, by simp [TempFile.step, TempFile.Truncate, hf], ?_⟩
    simp only [TempFile.step, TempFile.Truncate, hf]
    by_cases hn : 0 ≤ n
    · have hlen := GoFile.truncate_content_length f n hn
      have h2 := minInt64_le_right tf.dirtyThreshold n
      omega
    · have hid : (f.truncate n).1 = f := by
        unfold GoFile.truncate
        rw [if_pos (by omega)]
      rw [hid]
      have h2 := minInt64_le_left tf.dirtyThreshold n
      omega
  | setMtime t => exact ⟨f, hf, hle⟩
  | stat =>
    refine ⟨(f.seek 0 2).1, by simp [TempFile.step, TempFile.Stat, hf], ?_⟩
    simpa [TempFile.step, TempFile.Stat, hf, GoFile.seek_content] using hle

theorem TempFile.step_cleanInv (tf : TempFile) (op : Op) (h : cleanInv tf) :
    cleanInv (tf.step op) := by
  obtain ⟨f, hf, himp⟩ := h
  cases op with
  | read n =>
    refine ⟨(f.read n).1, by simp [TempFile.step, TempFile.Read, hf], ?_⟩
    intro hm
    have hm2 : tf.mtime = none := by simpa [TempFile.step, TempFile.Read, hf] using hm
    simpa [TempFile.step, TempFile.Read, hf, GoFile.read_content] using himp hm2
  | seek o w =>
    refine ⟨(f.seek o w).1, by simp [TempFile.step, TempFile.Seek, hf], ?_⟩
    intro hm
    have hm2 : tf.mtime = none := by simpa [TempFile.step, TempFile.Seek, hf] using hm
    simpa [TempFile.step, TempFile.Seek, hf, GoFile.seek_content] using himp hm2
  | readAt n o => exact ⟨f, hf, himp⟩
  | writeAt p o now =>
    refine ⟨(f.writeAt p o).1, by simp [TempFile.step, TempFile.WriteAt, hf], ?_⟩
    intro hm
    exact absurd hm (by simp [TempFile.step, TempFile.WriteAt, hf])
  | truncate n now =>
    refine ⟨(f.truncate n).1, by simp [TempFile.step, TempFile.Truncate, hf], ?_⟩
    intro hm
    exact absurd hm (by simp [TempFile.step, TempFile.Truncate, hf])
  | setMtime t =>
    refine ⟨f, hf, ?_⟩
    intro hm
    exact absurd hm (by simp [TempFile.step, TempFile.SetMtime])
  | stat =>
    refine ⟨(f.seek 0 2).1, by simp [TempFile.step, TempFile.Stat, hf], ?_⟩
    intro hm
    have hm2 : tf.mtime = none := by simpa [TempFile.step, TempFile.Stat, hf] using hm
    simpa [TempFile.step, TempFile.Stat, hf, GoFile.seek_content] using himp hm2

theorem TempFile.step_dirty_nonneg (tf : TempFile) (op : Op) (h : 0 ≤ tf.dirtyThreshold)
    (hop : op.argsOk = true) : 0 ≤ (tf.step op).dirtyThreshold := by
  cases op with
  | read n => simpa [TempFile.step, TempFile.Read_dirty] using h
  | seek o w => simpa [TempFile.step, TempFile.Seek_dirty] using h
  | readAt n o => exact h
  | writeAt p o now =>
    have ho : 0 ≤ o := by simpa [Op.argsOk] using hop
    simpa [TempFile.step, TempFile.WriteAt_dirty] using minInt64_nonneg h ho
  | truncate n now =>
    have hn : 0 ≤ n := by simpa [Op.argsOk] using hop
    simpa [TempFile.step, TempFile.Truncate_dirty] using minInt64_nonneg h hn
  | setMtime t => exact h
  | stat => simpa [TempFile.step, TempFile.Stat_dirty] using h

theorem TempFile.run_threshInv (tf : TempFile) (ops : List Op) (h : threshInv tf) :
    threshInv (TempFile.run tf ops) := by
  induction ops generalizing tf with
  | nil => exact h
  | cons op ops ih => exact ih (tf.step op) (tf.step_threshInv op h)

theorem TempFile.run_cleanInv (tf : TempFile) (ops : List Op) (h : cleanInv tf) :
    cleanInv (TempFile.run tf ops) := by
  induction ops generalizing tf with
  | nil => exact h
  | cons op ops ih => exact ih (tf.step op) (tf.step_cleanInv op h)

theorem TempFile.run_dirty_nonneg (tf : TempFile) (ops : List Op)
    (h : 0 ≤ tf.dirtyThreshold) (hall : ops.all Op.argsOk = true) :
    0 ≤ (TempFile.run tf ops).dirtyThreshold := by
  induction ops generalizing tf with
  | nil => exact h
  | cons op ops ih =>
    rw [List.all_cons, Bool.and_eq_true] at hall
    exact ih (tf.step op) (tf.step_dirty_nonneg op h hall.1) hall.2

/-- Claim C1: on a non-destroyed buffer, `WriteAt(p, offset)` and
`Truncate(n)` update the metadata before the backing store is touched: each
call factors into a pure metadata update followed by the delegation, where
the metadata update sets `dirtyThreshold` to `min(old dirtyThreshold,
offset)` (respectively `min(old dirtyThreshold, n)`) and unconditionally
overwrites `mtime` with `clock.Now()` while leaving the backing file alone,
and the delegation step never reads back or changes the metadata, so the
backing store is touched only after the metadata holds its final values. -/
theorem C1_metadata_before_delegation (tf : TempFile) (p : List Byte)
    (offset now n nowT : Int) (_h : tf.destroyed = false) :
    (writeAtMeta tf offset now).dirtyThreshold = minInt64 tf.dirtyThreshold offset ∧
    (writeAtMeta tf offset now).mtime = some now ∧
    (writeAtMeta tf offset now).f = tf.f ∧
    tf.WriteAt p offset now = delegateWriteAt (writeAtMeta tf offset now) p offset ∧
    (∀ s q o, ((delegateWriteAt s q o).1.dirtyThreshold = s.dirtyThreshold ∧
       (delegateWriteAt s q o).1.mtime = s.mtime)) ∧
    (truncateMeta tf n nowT).dirtyThreshold = minInt64 tf.dirtyThreshold n ∧
    (truncateMeta tf n nowT).mtime = some nowT ∧
    (truncateMeta tf n nowT).f = tf.f ∧
    tf.Truncate n nowT = delegateTruncate (truncateMeta tf n nowT) n ∧
    (∀ s m, ((delegateTruncate s m).1.dirtyThreshold = s.dirtyThreshold ∧
       (delegateTruncate s m).1.mtime = s.mtime)) := by
  refine ⟨rfl, rfl, rfl, rfl, ?_, rfl, rfl, rfl, rfl, ?_⟩
  · intro s q o
    cases hsf : s.f <;> simp [delegateWriteAt, hsf]
  · intro s m
    cases hsf : s.f <;> simp [delegateTruncate, hsf]

/-- Witness for C1 at a concrete non-destroyed buffer. -/
theorem C1_metadata_before_delegation_witness :
    (initTF [1, 2]).destroyed = false ∧
    (initTF [1, 2]).WriteAt [9] 0 5 = delegateWriteAt (writeAtMeta (initTF [1, 2]) 0 5) [9] 0 ∧
    (initTF [1, 2]).Truncate 1 6 = delegateTruncate (truncateMeta (initTF [1, 2]) 1 6) 1 :=
  ⟨rfl, (C1_metadata_before_delegation (initTF [1, 2]) [9] 0 5 1 6 rfl).2.2.2.1,
   (C1_metadata_before_delegation (initTF [1, 2]) [9] 0 5 1 6 rfl).2.2.2.2.2.2.2.2.1⟩

/-- Claim C2: every sequence of interface calls starting from a successfully
created buffer keeps Invariant 1: the buffer stays live and `dirtyThreshold`
is at most the backing content length. Every prefix of a sequence is itself
a sequence, so this covers the state after each call. -/
theorem C2_threshold_le_size (bytes : List Byte) (ops : List Op) :
    threshInv (TempFile.run (initTF bytes) ops) :=
  TempFile.run_threshInv (initTF bytes) ops ⟨_, rfl, le_refl _⟩

/-- Witness for C2 on a concrete buffer and call sequence. -/
theorem C2_threshold_le_size_witness :
    threshInv (TempFile.run (initTF [1, 2, 3]) [Op.writeAt [9] 1 5, Op.truncate 2 6]) :=
  C2_threshold_le_size [1, 2, 3] [Op.writeAt [9] 1 5, Op.truncate 2 6]

/-- Claim C3: every sequence of interface calls starting from a successfully
created buffer keeps Invariant 2: whenever `mtime` is absent, the dirty
threshold equals the backing content length — so only the mtime-setting
operations (`WriteAt`, `Truncate`, `SetMtime`) can make the threshold
strictly smaller than the size. -/
theorem C3_clean_implies_equal (bytes : List Byte) (ops : List Op) :
    cleanInv (TempFile.run (initTF bytes) ops) :=
  TempFile.run_cleanInv (initTF bytes) ops ⟨_, rfl, fun _ => rfl⟩

/-- Witness for C3 on a concrete buffer and call sequence. -/
theorem C3_clean_implies_equal_witness :
    cleanInv (TempFile.run (initTF [1, 2]) [Op.read 1, Op.stat, Op.seek 0 0]) :=
  C3_clean_implies_equal [1, 2] [Op.read 1, Op.stat, Op.seek 0 0]

/-- Claim C8: `dirtyThreshold` is monotonically non-increasing: a single
`WriteAt` or `Truncate` never raises it, and neither does any sequence of
interface calls. -/
theorem C8_threshold_monotone (tf : TempFile) (p : List Byte) (off now m mnow : Int)
    (ops : List Op) :
    ((tf.WriteAt p off now).1.dirtyThreshold ≤ tf.dirtyThreshold) ∧
    ((tf.Truncate m mnow).1.dirtyThreshold ≤ tf.dirtyThreshold) ∧
    ((TempFile.run tf ops).dirtyThreshold ≤ tf.dirtyThreshold) := by
  refine ⟨?_, ?_, TempFile.run_dirty_le tf ops⟩
  · rw [TempFile.WriteAt_dirty]
    exact minInt64_le_left _ _
  · rw [TempFile.Truncate_dirty]
    exact minInt64_le_left _ _

/-- Claim C9: the four read-only operations `Read`, `Seek`, `ReadAt` and
`Stat` never change `dirtyThreshold` or `mtime` (and `ReadAt` changes no
state at all). -/
theorem C9_reads_preserve_metadata (tf : TempFile) (n : Nat) (off : Int) (w : Nat)
    (m : Nat) (off2 : Int) :
    ((tf.Read n).1.dirtyThreshold = tf.dirtyThreshold ∧ (tf.Read n).1.mtime = tf.mtime) ∧
    ((tf.Seek off w).1.dirtyThreshold = tf.dirtyThreshold ∧
      (tf.Seek off w).1.mtime = tf.mtime) ∧
    (tf.step (Op.readAt m off2) = tf) ∧
    (tf.Stat.1.dirtyThreshold = tf.dirtyThreshold ∧ tf.Stat.1.mtime = tf.mtime) :=
  ⟨⟨tf.Read_dirty n, tf.Read_mtime n⟩, ⟨tf.Seek_dirty off w, tf.Seek_mtime off w⟩, rfl,
   ⟨tf.Stat_dirty, tf.Stat_mtime⟩⟩

/-- Claim C10: `WriteAt` and `Truncate` are not atomic with respect to
errors: whenever the delegated backing-store call reports an error, the
metadata has nevertheless already been updated — `dirtyThreshold` lowered by
the min rule and `mtime` set to the clock value — and is not rolled back. -/
theorem C10_metadata_survives_errors (tf : TempFile) (p : List Byte)
    (off now m mnow : Int) :
    ((tf.WriteAt p off now).2.2 ≠ none →
      ((tf.WriteAt p off now).1.dirtyThreshold = minInt64 tf.dirtyThreshold off ∧
       (tf.WriteAt p off now).1.mtime = some now)) ∧
    ((tf.Truncate m mnow).2 ≠ none →
      ((tf.Truncate m mnow).1.dirtyThreshold = minInt64 tf.dirtyThreshold m ∧
       (tf.Truncate m mnow).1.mtime = some mnow)) :=
  ⟨fun _ => ⟨tf.WriteAt_dirty p off now, tf.WriteAt_mtime p off now⟩,
   fun _ => ⟨tf.Truncate_dirty m mnow, tf.Truncate_mtime m mnow⟩⟩

/-- Witness for C10: a negative offset makes the backing write and the
backing truncation fail, yet the metadata is updated. -/
theorem C10_metadata_survives_errors_witness :
    (((initTF [1]).WriteAt [9] (-1) 7).1.dirtyThreshold =
       minInt64 (initTF [1]).dirtyThreshold (-1) ∧
     ((initTF [1]).WriteAt [9] (-1) 7).1.mtime = some 7) ∧
    (((initTF [1]).Truncate (-2) 8).1.dirtyThreshold =
       minInt64 (initTF [1]).dirtyThreshold (-2) ∧
     ((initTF [1]).Truncate (-2) 8).1.mtime = some 8) :=
  ⟨(C10_metadata_survives_errors (initTF [1]) [9] (-1) 7 (-2) 8).1 (by decide),
   (C10_metadata_survives_errors (initTF [1]) [9] (-1) 7 (-2) 8).2 (by decide)⟩

/-- Claim C4 is false on the code: `Stat` obtains the size with
`tf.f.Seek(0, 2)` and never restores the cursor (the interface comment even
says it may invalidate the seek position). Concretely, on a 4-byte buffer
seeked to the start, reading one byte and then another yields byte 20, but
with a `Stat` between the two reads the second read hits end-of-file and
yields nothing. -/
theorem C4_counterexample :
    ((((initTF [10, 20, 30, 40]).Seek 0 0).1.Read 1).1.Read 1).2.1 = [20] ∧
    (((((initTF [10, 20, 30, 40]).Seek 0 0).1.Read 1).1.Stat.1).Read 1).2.1 = [] ∧
    ([20] : List Byte) ≠ [] := by decide

/-- Claim C4 amended: `Stat` leaves `dirtyThreshold`, `mtime` and the
content untouched, but parks the cursor at end-of-content instead of
restoring it, so a `Stat` between two sequential `Read` calls can change the
bytes subsequently read. (`CheckInvariants`, by contrast, does restore the
cursor.) -/
theorem C4_amended_stat_leaves_cursor_at_end (tf : TempFile) (f : GoFile)
    (hf : tf.f = some f) :
    tf.Stat.1 = { tf with f := some { content := f.content, pos := f.content.length } } := by
  simp [TempFile.Stat, hf, GoFile.seek, seekTo]
  rw [if_neg (by omega : ¬((f.content.length : Int) < 0))]

/-- Witness for the amended C4 at a concrete buffer. -/
theorem C4_amended_stat_leaves_cursor_at_end_witness :
    (initTF [7, 8]).f = some { content := [7, 8], pos := 2 } ∧
    (initTF [7, 8]).Stat.1 =
      { initTF [7, 8] with f := some { content := [7, 8], pos := 2 } } :=
  ⟨rfl, C4_amended_stat_leaves_cursor_at_end (initTF [7, 8])
    { content := [7, 8], pos := 2 } rfl⟩

/-- Claim C5 is false on the code: when `io.Copy` fails, `NewTempFile`
returns the copy error without a buffer, but it returns immediately and
never calls `Close` on the anonymous file it had just allocated. -/
theorem C5_counterexample :
    NewTempFile { bytes := [1, 2, 3], readFails := true } false =
      { result := Except.error CreateErr.copy, allocated := true, fileClosed := false } := rfl

/-- Claim C5 amended: if copying the content stream fails, `NewTempFile`
returns a `CopyError` and no buffer, but the freshly allocated anonymous
backing file is not closed before the error is returned — its cleanup is
left to the file being anonymous (unlinked) and to eventual finalization,
not performed internally. -/
theorem C5_amended_copy_error_leaves_file_open (bytes : List Byte) :
    NewTempFile { bytes := bytes, readFails := true } false =
      { result := Except.error CreateErr.copy, allocated := true, fileClosed := false } := rfl

/-- Claim C6 is false on the code: `WriteAt` lowers `dirtyThreshold` to
`min(dirtyThreshold, offset)` before the backing store rejects the call, so
a negative offset drives the threshold negative. -/
theorem C6_counterexample :
    (((initTF []).WriteAt [0] (-3) 5).1).dirtyThreshold = -3 ∧
    ¬(0 ≤ (((initTF []).WriteAt [0] (-3) 5).1).dirtyThreshold) := by decide

/-- Claim C6 amended: `dirtyThreshold` stays non-negative for every sequence
of operations in which every `WriteAt` offset and every `Truncate` size is
non-negative; with arbitrary integer arguments, a negative offset or size
makes it negative because the metadata update precedes the backing store's
rejection of the argument. -/
theorem C6_amended_nonneg_args (bytes : List Byte) (ops : List Op)
    (h : ops.all Op.argsOk = true) :
    0 ≤ (TempFile.run (initTF bytes) ops).dirtyThreshold :=
  TempFile.run_dirty_nonneg (initTF bytes) ops (Int.natCast_nonneg bytes.length) h

/-- Witness for the amended C6 on a concrete sequence with non-negative
arguments. -/
theorem C6_amended_nonneg_args_witness :
    ([Op.writeAt [9] 1 5, Op.truncate 0 6].all Op.argsOk = true) ∧
    0 ≤ (TempFile.run (initTF [1, 2]) [Op.writeAt [9] 1 5, Op.truncate 0 6]).dirtyThreshold :=
  ⟨by decide, C6_amended_nonneg_args [1, 2] [Op.writeAt [9] 1 5, Op.truncate 0 6] (by decide)⟩

/-- Claim C7 is false on the code: `SetMtime` performs no destroyed-check
and has no failure channel at all — called on a destroyed instance it
silently succeeds, recording the mtime instead of rejecting or aborting. -/
theorem C7_counterexample :
    (initTF [1, 2]).Destroy.SetMtime 42 =
      { destroyed := true, f := none, dirtyThreshold := 2, mtime := some 42 } := by decide

/-- Claim C7 amended: after `Destroy`, `CheckInvariants` panics and `Read`,
`Seek`, `ReadAt`, `WriteAt`, `Truncate` and `Stat` all fail with
`os.ErrInvalid` through the nil file handle (though `WriteAt`/`Truncate`
still update the metadata first); `SetMtime` alone silently succeeds,
recording the mtime with no error or abort. -/
theorem C7_amended_destroyed_behaviour (tf : TempFile) (n : Nat) (off : Int) (w : Nat)
    (p : List Byte) (now m mnow t : Int) :
    (tf.Destroy.Read n).2.2 = some FErr.invalid ∧
    (tf.Destroy.Seek off w).2 = Except.error FErr.invalid ∧
    (tf.Destroy.ReadAt n off).2 = some FErr.invalid ∧
    (tf.Destroy.WriteAt p off now).2.2 = some FErr.invalid ∧
    (tf.Destroy.Truncate m mnow).2 = some FErr.invalid ∧
    tf.Destroy.Stat.2 = Except.error FErr.invalid ∧
    tf.Destroy.CheckInvariants.2 = true ∧
    tf.Destroy.SetMtime t = { tf.Destroy with mtime := some t } :=
  ⟨rfl, rfl, rfl, rfl, rfl, rfl, rfl, rfl⟩

end Gcsx
